import Mathlib

/-!
Shallow embedding of the PEMI transparent UDP middlebox core
(`pemi/src/queue.rs`, `conn.rs`, `cc.rs`, `retrans.rs`) and proofs of the
specification claims about it.

Modelling conventions:
* `std::time::Instant` and `std::time::Duration` are rational numbers of
  seconds (`ℚ`).  `Instant - Instant` (`Instant::duration_since`) saturates
  to zero exactly as in Rust, via `isub`.
* `f64` arithmetic appearing in the packet-matching DP is modelled over `ℚ`
  with `Option ℚ` standing for values that may be `f64::INFINITY`
  (`none = +∞`); on the integer-valued fixture inputs of the test suite this
  is exact.
* Panicking operations (`unwrap`, `assert!`, index out of bounds, explicit
  `panic!`) are modelled with `Option`: `none` is a panic.
* Side effects (`pemi_io::send_transparently`) are modelled by returning the
  list of sent payloads together with the new state.
-/

namespace Pemi

/-- An `std::time::Instant`, as rational seconds from an arbitrary origin. -/
abbrev Instant : Type := ℚ

/-- An `std::time::Duration`, as a rational number of seconds. -/
abbrev Duration : Type := ℚ

/-- Rust `Instant::duration_since` / `Instant - Instant`: the elapsed time from
`b` to `a`, or zero if `b` is later (Rust saturates). -/
def isub (a b : ℚ) : ℚ := max (a - b) 0

/-- Constant `CLOSE_THRESHOLD` (100 µs), in seconds. -/
def CLOSE_THRESHOLD : ℚ := 1 / 10000

/-- Constant `FLOWLET_MAX_PKTS`. -/
def FLOWLET_MAX_PKTS : ℕ := 100

/-- Constant `DEFAULT_ELICITING_THRESHOLD`. -/
def DEFAULT_ELICITING_THRESHOLD : ℕ := 1

/-- Constant `WHEN_MEASURE_ELICITING_THRESHOLD`. -/
def WHEN_MEASURE_ELICITING_THRESHOLD : ℕ := 50

/-- Constant `DURATION_RATIO_THRESHOLD` (0.8). -/
def DURATION_RATIO_THRESHOLD : ℚ := 4 / 5

/-! ### The sent/reply matching DP (`Flowlet::match_sent_reply_dp`)

The Rust function fills an `(n+1)×(m+1)` table `dp` of `f64` initialised to
`INFINITY`, together with a parallel `prev` table of back-pointers, and then
backtracks from `(n, m)`.  Here `dpF i j` is the final value of `dp[i][j]`
(`none` for `INFINITY`) and `prevF i j` the final value of `prev[i][j]`,
with `none` for an unset back-pointer. -/

/-- Addition on `Option ℚ`, with `none` playing `f64::INFINITY`. -/
def oadd : Option ℚ → ℚ → Option ℚ
  | none, _ => none
  | some a, c => some (a + c)

/-- Strict order on `Option ℚ` with `none = +∞` (as `f64` compares with
`INFINITY`: `∞ < x` is false, `x < ∞` is true for finite `x`). -/
def olt : Option ℚ → Option ℚ → Bool
  | none, _ => false
  | some _, none => true
  | some a, some b => decide (a < b)

/-- The matching cost `|(reply[j] - sent[i]) - used_rtt|` for 0-based
indices `i`, `j` (out-of-range reads never occur on the queried cells). -/
def dpCost (sent reply : List ℚ) (used_rtt : ℚ) (i j : ℕ) : ℚ :=
  |reply.getD j 0 - sent.getD i 0 - used_rtt|

/-- Final contents of the Rust `dp` table: `dp[0][0] = dp[i][0] = 0`, cells
with `j > min i m` stay `INFINITY`, and otherwise
`dp[i][j] = min (dp[i-1][j-1] + cost) (dp[i-1][j])`. -/
def dpF (sent reply : List ℚ) (used_rtt : ℚ) : ℕ → ℕ → Option ℚ
  | 0, 0 => some 0
  | _ + 1, 0 => some 0
  | 0, _ + 1 => none
  | i + 1, j + 1 =>
    if j + 1 ≤ min (i + 1) reply.length then
      let a := oadd (dpF sent reply used_rtt i j) (dpCost sent reply used_rtt i j)
      let b := dpF sent reply used_rtt i (j + 1)
      if olt b a then b else a
    else none

/-- Final contents of the Rust `prev` table.  An entry is
`(prev_i, prev_j, matched)` with `matched = some r` for a match with reply
`r` and `none` for "skip sent" (the Rust `-1`). -/
def prevF (sent reply : List ℚ) (used_rtt : ℚ) : ℕ → ℕ → Option (ℕ × ℕ × Option ℕ)
  | 0, _ => none
  | i + 1, 0 => some (i, 0, none)
  | i + 1, j + 1 =>
    if j + 1 ≤ min (i + 1) reply.length then
      let a := oadd (dpF sent reply used_rtt i j) (dpCost sent reply used_rtt i j)
      let b := dpF sent reply used_rtt i (j + 1)
      if olt b a then some (i, j + 1, none) else some (i, j, some j)
    else none

/-- The backtracking loop.  Every `prev` entry for row `i` points to row
`i - 1`, so the loop is recursion on the row.  Returns the mapping entries
for rows `1..i` in order (`none` = unmatched, the Rust `usize::MAX`);
`none` overall models the `expect` panic on an unset back-pointer. -/
def btLoop (sent reply : List ℚ) (used_rtt : ℚ) : ℕ → ℕ → Option (List (Option ℕ))
  | 0, _ => some []
  | i + 1, j =>
    match prevF sent reply used_rtt (i + 1) j with
    | none => none
    | some (_, pj, matched) =>
      match btLoop sent reply used_rtt i pj with
      | none => none
      | some rest => some (rest ++ [matched])

/-- Rust `Flowlet::match_sent_reply_dp`: match sent packets to reply packets,
minimising `∑ |(reply[j] - sent[i]) - rtt|` under a monotone matching.
Returns the sent→reply index mapping (`none` = unmatched); the outer `none`
models a backtracking panic (never hit on valid inputs). -/
def match_sent_reply_dp (sent reply : List ℚ) (used_rtt : ℚ) :
    Option (List (Option ℕ)) :=
  btLoop sent reply used_rtt sent.length reply.length

/-! ### Packets and flowlets -/

/-- Rust `RawUdpPacket`: a raw UDP packet with its PEMI-local number,
arrival timestamp, and payload bytes. -/
structure RawUdpPacket where
  number : ℕ
  timestamp : Instant
  payload : List ℕ
deriving DecidableEq, Repr

/-- Rust `RetransUdpPacket`: like `RawUdpPacket` but without payload. -/
structure RetransUdpPacket where
  number : ℕ
  timestamp : Instant
deriving DecidableEq, Repr

/-- Rust `Packet`: raw or retransmitted. -/
inductive Packet where
  | Raw : RawUdpPacket → Packet
  | Retrans : RetransUdpPacket → Packet
deriving DecidableEq, Repr

/-- Rust `Packet::number`. -/
def Packet.number : Packet → ℕ
  | .Raw p => p.number
  | .Retrans p => p.number

/-- Rust `Packet::timestamp`. -/
def Packet.timestamp : Packet → Instant
  | .Raw p => p.timestamp
  | .Retrans p => p.timestamp

instance : Inhabited Packet := ⟨.Retrans ⟨0, 0⟩⟩

/-- Rust `Flowlet`: metadata of one flowlet. -/
structure Flowlet where
  pkt_nums : List ℕ
  close_count : ℕ
  reply_pkt_times : List Instant
  reply_pkt_nums : List ℕ
  begin_time : Instant
  end_time : Instant
  complete : Bool
deriving DecidableEq, Repr

/-- Rust `Flowlet::new`. -/
def Flowlet.new (pkt_num : ℕ) (begin_time : Instant) : Flowlet where
  pkt_nums := [pkt_num]
  close_count := 0
  reply_pkt_times := []
  reply_pkt_nums := []
  begin_time := begin_time
  end_time := begin_time
  complete := false

/-- Rust `Flowlet::add`: append a packet, bumping `close_count` when it is
within `CLOSE_THRESHOLD` of the previous one. -/
def Flowlet.add (fl : Flowlet) (packet_num : ℕ) (forward_ts : Instant) : Flowlet :=
  let fl :=
    if fl.pkt_nums ≠ [] ∧ isub forward_ts fl.end_time < CLOSE_THRESHOLD then
      { fl with close_count := fl.close_count + 1 }
    else fl
  { fl with pkt_nums := fl.pkt_nums ++ [packet_num], end_time := forward_ts }

/-- Rust `Flowlet::set_as_complete`. -/
def Flowlet.set_as_complete (fl : Flowlet) : Flowlet := { fl with complete := true }

/-- Rust `Flowlet::is_complete`. -/
def Flowlet.is_complete (fl : Flowlet) : Bool := fl.complete

/-- Rust `Flowlet::exactly_replyed`: one recorded reply per sent packet. -/
def Flowlet.exactly_replyed (fl : Flowlet) : Bool :=
  fl.reply_pkt_times.length == fl.pkt_nums.length

/-- Rust `Flowlet::add_reply` (the `reply num > data num` case only logs). -/
def Flowlet.add_reply (fl : Flowlet) (come_time : Instant) (pkt_num : ℕ) : Flowlet :=
  { fl with
    reply_pkt_times := fl.reply_pkt_times ++ [come_time]
    reply_pkt_nums := fl.reply_pkt_nums ++ [pkt_num] }

/-- Rust `Flowlet::match_sent_part_reply`: choose `used_rtt`, convert times
to seconds relative to the first sent time, and run the DP.  The `none`
results model the `unwrap` panics on an empty reply list and the
`assert_ne!` on an empty sent list. -/
def Flowlet.match_sent_part_reply (fl : Flowlet) (sent_pkt_times : List Instant)
    (reply_rtt : Duration) : Option (List (Option ℕ)) :=
  match fl.reply_pkt_times.head?, fl.reply_pkt_times.getLast? with
  | some first, some last =>
    let sent_duration := isub fl.end_time fl.begin_time
    let reply_duration := isub last first
    let used_rtt :=
      if reply_duration < sent_duration * DURATION_RATIO_THRESHOLD then reply_rtt
      else isub last fl.end_time
    match sent_pkt_times.head? with
    | none => none
    | some base =>
      let sent := sent_pkt_times.map (fun t => isub t base)
      let reply := fl.reply_pkt_times.map (fun t => isub t base)
      match_sent_reply_dp sent reply used_rtt
  | _, _ => none

/-! ### Loss extraction from a partial mapping (`Flowlet::extract_part_loss`)

The Rust function mutates an `inferred_reply` array (`usize::MAX` = no
inferred reply, here `none`); each loop below mirrors one of its loops. -/

/-- The backward close-packet loop: starting at index `j - 1` (argument is
`j`), mark predecessors with `reply` while they are unset and within
`CLOSE_THRESHOLD` of their successor. -/
def backProp (times : List Instant) (reply : ℕ) : ℕ → Array (Option ℕ) → Array (Option ℕ)
  | 0, arr => arr
  | j + 1, arr =>
    if arr.getD j (some 0) = none ∧ isub (times.getD (j + 1) 0) (times.getD j 0) < CLOSE_THRESHOLD then
      backProp times reply j (arr.set! j (some reply))
    else arr

/-- The forward close-packet loop from index `j` upward; the fuel starts at
`times.length` and bounds the number of steps (the loop stops at the array
end anyway, so the fuel is never exhausted). -/
def fwdProp (times : List Instant) (reply : ℕ) : ℕ → ℕ → Array (Option ℕ) → Array (Option ℕ)
  | 0, _, arr => arr
  | fuel + 1, j, arr =>
    if j < times.length ∧ arr.getD j (some 0) = none
        ∧ isub (times.getD j 0) (times.getD (j - 1) 0) < CLOSE_THRESHOLD then
      fwdProp times reply fuel (j + 1) (arr.set! j (some reply))
    else arr

/-- Phase 1 of `extract_part_loss`: for every matched sent packet, record
its reply index and propagate it to close neighbours on both sides. -/
def inferClose (times : List Instant) (map : List (Option ℕ)) : Array (Option ℕ) :=
  (List.range times.length).foldl
    (fun arr i =>
      match map.getD i none with
      | none => arr
      | some reply =>
        fwdProp times reply times.length (i + 1)
          (backProp times reply i (arr.set! i (some reply))))
    (Array.mkArray times.length none)

/-- The first index `j ≥ left` whose entry is set, or the array size: the
Rust loop that expands `right` over a run of unset entries. -/
def findRight (arr : Array (Option ℕ)) (left : ℕ) : ℕ :=
  match (List.range arr.size).find? (fun j => left ≤ j && arr.getD j none != none) with
  | some j => j
  | none => arr.size

/-- Phase 2 of `extract_part_loss` (two-pointer loop for
`eliciting_threshold ≥ 2`): every maximal unset run of length below the
threshold that is not at the tail is marked replied.  The `assert_eq!(len, 1)`
panic is `none`; `left` strictly increases, so fuel `size + 1` is never
exhausted. -/
def elicitLoop (thresh : ℕ) : ℕ → ℕ → Array (Option ℕ) → Option (Array (Option ℕ))
  | 0, _, arr => some arr
  | fuel + 1, left, arr =>
    if left < arr.size then
      if arr.getD left (some 0) ≠ none then
        elicitLoop thresh fuel (left + 1) arr
      else
        let right := findRight arr left
        if right = arr.size then some arr
        else if right - left < thresh then
          if right - left = 1 then elicitLoop thresh fuel right (arr.set! left (some 0))
          else none
        else elicitLoop thresh fuel right arr
    else some arr

/-- Rust `Flowlet::extract_part_loss`: infer replied packets from the DP
mapping (close packets and the eliciting threshold) and return the packet
numbers still without an inferred reply. -/
def Flowlet.extract_part_loss (fl : Flowlet) (sent_pkt_times : List Instant)
    (sent_to_reply_map : List (Option ℕ)) (eliciting_threshold : ℕ) : Option (List ℕ) :=
  let n := sent_pkt_times.length
  let arr := inferClose sent_pkt_times sent_to_reply_map
  let arrFinal :=
    if eliciting_threshold ≥ 2 then elicitLoop eliciting_threshold (arr.size + 1) 0 arr
    else some arr
  match arrFinal with
  | none => none
  | some a =>
    some ((List.range n).filterMap fun i =>
      if a.getD i (some 0) = none then some (fl.pkt_nums.getD i 0) else none)

/-- Rust `Flowlet::extract_rtt_samples`: one sample per matched sent packet. -/
def Flowlet.extract_rtt_samples (fl : Flowlet) (sent_to_reply_map : List (Option ℕ))
    (sent_pkt_times : List Instant) : List Duration :=
  (List.range sent_to_reply_map.length).filterMap fun i =>
    match sent_to_reply_map.getD i none with
    | none => none
    | some r => some (isub (fl.reply_pkt_times.getD r 0) (sent_pkt_times.getD i 0))

/-! ### The per-direction packet queue (`PacketQueue`) -/

/-- Rust `PacketQueue`: one per direction of a connection. -/
structure PacketQueue where
  packets : List Packet
  detected_loss : List RawUdpPacket
  flowlets : List Flowlet
  processed : ℕ
  last_packet_time : Instant
  smoothed_interval : Duration
  eliciting_threshold : ℕ
  reply_nums : ℕ
  flowlet_interval_factor : ℚ
  flowlet_end_factor : ℚ
deriving DecidableEq, Repr

/-- Rust `PacketQueue::new`; `Instant::now()` is passed in explicitly. -/
def PacketQueue.new (now : Instant) : PacketQueue where
  packets := []
  detected_loss := []
  flowlets := []
  processed := 0
  reply_nums := 0
  last_packet_time := now
  smoothed_interval := 1 / 1000
  eliciting_threshold := DEFAULT_ELICITING_THRESHOLD
  flowlet_interval_factor := 2
  flowlet_end_factor := 2

/-- Rust `PacketQueue::set_factors`. -/
def PacketQueue.set_factors (q : PacketQueue) (fif fef : ℚ) : PacketQueue :=
  { q with flowlet_interval_factor := fif, flowlet_end_factor := fef }

/-- Rust `PacketQueue::record_packet_interval`: EWMA with α = 1/8. -/
def PacketQueue.record_packet_interval (q : PacketQueue) (forward_ts : Instant) : PacketQueue :=
  let interval := isub forward_ts q.last_packet_time
  { q with
    last_packet_time := forward_ts
    smoothed_interval := q.smoothed_interval * (7 / 8) + interval * (1 / 8) }

/-- Rust `PacketQueue::flowlet_timeout` (the `_side_rtt` argument is unused
in the source too). -/
def PacketQueue.flowlet_timeout (q : PacketQueue) (_side_rtt : Duration) : Duration :=
  q.smoothed_interval * q.flowlet_interval_factor

/-- Rust `PacketQueue::flowlet_end_timeout`. -/
def PacketQueue.flowlet_end_timeout (q : PacketQueue) (reply_rtt : Duration) : Duration :=
  reply_rtt + q.flowlet_timeout reply_rtt * q.flowlet_end_factor

/-- The inner loop of `reset_due_to_rtt_deviation` and of
`remove_a_complete_flowlet`: pop the flowlet's packet numbers off the front
of the packet deque, asserting that the numbers match (`none` = panic). -/
def popPkts : List ℕ → List Packet → Option (List Packet)
  | [], ps => some ps
  | _ :: _, [] => none
  | num :: nums, p :: ps => if p.number = num then popPkts nums ps else none

/-- The outer loop of `reset_due_to_rtt_deviation`: pop head flowlets that
have at least one reply, together with their packets. -/
def resetLoop : List Flowlet → List Packet → Option (List Flowlet × List Packet)
  | [], ps => some ([], ps)
  | fl :: fls, ps =>
    if fl.reply_pkt_times = [] then some (fl :: fls, ps)
    else
      match popPkts fl.pkt_nums ps with
      | none => none
      | some ps' => resetLoop fls ps'

/-- Rust `PacketQueue::reset_due_to_rtt_deviation`: delete all head
flowlets that have found a reply, leaving only flowlets with no reply yet;
their packets leave the deque without touching `detected_loss`. -/
def PacketQueue.reset_due_to_rtt_deviation (q : PacketQueue) : Option PacketQueue :=
  (resetLoop q.flowlets q.packets).map fun r =>
    { q with flowlets := r.1, packets := r.2 }

/-- Rust `PacketQueue::measure_eliciting_threshold`.  The Rust comparison is
`reply_nums < (processed as f64 * 0.6) as u64`; the cast truncates, and for
every `processed` below 2^52 the rounded `f64` product truncates to
`⌊3 · processed / 5⌋` exactly (`0.6` underestimates `3/5` by less than half
an ulp of any product), which is the natural-division form used here. -/
def PacketQueue.measure_eliciting_threshold (q : PacketQueue) : PacketQueue :=
  if q.reply_nums < 3 * q.processed / 5 then { q with eliciting_threshold := 2 }
  else { q with eliciting_threshold := 1 }

/-- Rust `PacketQueue::oldest_ts`. -/
def PacketQueue.oldest_ts (q : PacketQueue) : Option Instant :=
  q.packets.head?.map Packet.timestamp

/-- Rust `PacketQueue::newest_ts`. -/
def PacketQueue.newest_ts (q : PacketQueue) : Option Instant :=
  q.packets.getLast?.map Packet.timestamp

/-- Rust `PacketQueue::get_packet`: panics (`none`) when the number is
outside the range held by the deque. -/
def PacketQueue.get_packet (q : PacketQueue) (num : ℕ) : Option Packet :=
  match q.packets.head?, q.packets.getLast? with
  | some front, some back =>
    if num < front.number ∨ back.number < num then none
    else q.packets[num - front.number]?
  | _, _ => none

/-- Rust `PacketQueue::add`.  Returns the new queue, the packet number and
whether a new flowlet was created; `none` models the explicit
`panic!("too many packets in the queue")` and the `back_mut().unwrap()`
panic (packets present but no flowlet). -/
def PacketQueue.add (q : PacketQueue) (forward_ts : Instant) (payload : Option (List ℕ))
    (side_rtt : Duration) (_client_queue : Bool) : Option (PacketQueue × ℕ × Bool) :=
  let q := if payload.isSome then q.record_packet_interval forward_ts else q
  let q := { q with processed := q.processed + 1 }
  let q :=
    if q.processed % WHEN_MEASURE_ELICITING_THRESHOLD = 0 then q.measure_eliciting_threshold
    else q
  if q.packets.length > 1000 then none
  else
    let step : Option (PacketQueue × Bool) :=
      match q.newest_ts with
      | none => some ({ q with flowlets := q.flowlets ++ [Flowlet.new q.processed forward_ts] }, true)
      | some newest_time =>
        if isub forward_ts newest_time ≤ q.flowlet_timeout side_rtt then
          match q.flowlets.getLast? with
          | none => none
          | some fl =>
            some ({ q with flowlets := q.flowlets.dropLast ++ [fl.add q.processed forward_ts] }, false)
        else some ({ q with flowlets := q.flowlets ++ [Flowlet.new q.processed forward_ts] }, true)
    match step with
    | none => none
    | some (q, new_flowlet) =>
      let pkt : Packet :=
        match payload with
        | none => .Retrans ⟨q.processed, forward_ts⟩
        | some pl => .Raw ⟨q.processed, forward_ts, pl⟩
      some ({ q with packets := q.packets ++ [pkt] }, q.processed, new_flowlet)

/-- The packet-popping loop of `remove_a_complete_flowlet`: pop the
flowlet's packets; lost Raw packets go to `detected_loss`, lost Retrans
packets are dropped (never retransmit a retransmission).  The `reply_index`
bookkeeping in the source only feeds a debug log and is omitted.  `none`
models the `pop_front().unwrap()` and `assert_eq!` panics. -/
def removeLoop (lossed : List ℕ) :
    List ℕ → List Packet → List RawUdpPacket → Option (List Packet × List RawUdpPacket)
  | [], ps, dl => some (ps, dl)
  | _ :: _, [], _ => none
  | num :: nums, p :: ps, dl =>
    if p.number = num then
      if num ∈ lossed then
        match p with
        | .Raw rp => removeLoop lossed nums ps (dl ++ [rp])
        | .Retrans _ => removeLoop lossed nums ps dl
      else removeLoop lossed nums ps dl
    else none

/-- Rust `PacketQueue::remove_a_complete_flowlet` (the `assert!` that the
head flowlet is complete is `none` on failure). -/
def PacketQueue.remove_a_complete_flowlet (q : PacketQueue) (lossed_pkts : List ℕ) :
    Option PacketQueue :=
  match q.flowlets with
  | [] => none
  | fl :: fls =>
    if fl.complete then
      (removeLoop lossed_pkts fl.pkt_nums q.packets q.detected_loss).map fun r =>
        { q with flowlets := fls, packets := r.1, detected_loss := r.2 }
    else none

/-- The RTT-sample loop of the exactly-replied branch of
`complete_one_flowlet`: `reply_pkt_times[i] - get_packet(pkt_nums[i]).timestamp`. -/
def exactSamples (q : PacketQueue) (fl : Flowlet) : Option (List Duration) :=
  (List.range fl.pkt_nums.length).mapM fun i =>
    (q.get_packet (fl.pkt_nums.getD i 0)).map fun p =>
      isub (fl.reply_pkt_times.getD i 0) p.timestamp

/-- The sent-times projection of the partially-replied branch of
`complete_one_flowlet`: `get_packet(pkt_num).timestamp` per flowlet packet. -/
def sentTimes (q : PacketQueue) (fl : Flowlet) : Option (List Instant) :=
  fl.pkt_nums.mapM fun num => (q.get_packet num).map Packet.timestamp

/-- Rust `PacketQueue::complete_one_flowlet`: complete `flowlets[0]` and
return the RTT samples it yields together with the queue after removal.
Branches: more replies than sent (no loss, no samples), exactly replied
(no loss, one sample per pair), no reply (all lost), partial (DP matching,
close-packet/eliciting-threshold loss extraction). -/
def PacketQueue.complete_one_flowlet (q : PacketQueue) (reply_rtt : Duration) :
    Option (List Duration × PacketQueue) :=
  match q.flowlets with
  | [] => none
  | fl :: _ =>
    if ¬ fl.complete then none
    else if fl.pkt_nums.length < fl.reply_pkt_times.length then
      (q.remove_a_complete_flowlet []).map fun q' => ([], q')
    else if fl.exactly_replyed then
      match exactSamples q fl with
      | none => none
      | some rtt_samples =>
        (q.remove_a_complete_flowlet []).map fun q' => (rtt_samples, q')
    else if fl.reply_pkt_times = [] then
      (q.remove_a_complete_flowlet fl.pkt_nums).map fun q' => ([], q')
    else
      match sentTimes q fl with
      | none => none
      | some sent_pkt_times =>
        match fl.match_sent_part_reply sent_pkt_times reply_rtt with
        | none => none
        | some sent_to_reply_map =>
          if sent_to_reply_map.length = fl.pkt_nums.length then
            match fl.extract_part_loss sent_pkt_times sent_to_reply_map q.eliciting_threshold with
            | none => none
            | some lossed_pkts =>
              let rtt_samples := fl.extract_rtt_samples sent_to_reply_map sent_pkt_times
              (q.remove_a_complete_flowlet lossed_pkts).map fun q' => (rtt_samples, q')
          else none

/-- Rust `PacketQueue::pop_retransmit_front`. -/
def PacketQueue.pop_retransmit_front (q : PacketQueue) : Option RawUdpPacket × PacketQueue :=
  match q.detected_loss with
  | [] => (none, q)
  | p :: ps => (some p, { q with detected_loss := ps })

/-- Rust `PacketQueue::have_retransmit`. -/
def PacketQueue.have_retransmit (q : PacketQueue) : Bool :=
  !q.detected_loss.isEmpty

/-! ### The Copa congestion controller (`cc.rs`) -/

/-- Constant `MIN_RTT_WINDOW` (10 s). -/
def MIN_RTT_WINDOW : Duration := 10

/-- Constant `MIN_STANDING_WINDOW` (10 ms). -/
def MIN_STANDING_WINDOW : Duration := 1 / 100

/-- Constant `V_MAX`. -/
def V_MAX : ℚ := 32

/-- Modelled from the spec: the `Minmax` windowed-minimum filter
("Windowed minimum over timestamped samples (Kathleen Nichols style)") is
declared as `mod minmax;` in `lib.rs` but `minmax.rs` is not among the
sources.  The filter is modelled extensionally as the timestamped samples
it retains; `running_min` ingests the new sample, drops samples older than
the window, and returns the minimum of the retained samples.  The
`Minmax::new(Duration::MAX)` initial estimate is the empty sample list
(the first real sample always displaces it). -/
structure Minmax where
  samples : List (Instant × Duration)
deriving DecidableEq, Repr

/-- Modelled from the spec: a fresh filter (see `Minmax`). -/
def Minmax.new : Minmax := ⟨[]⟩

/-- Modelled from the spec: `Minmax::running_min` (see `Minmax`). -/
def Minmax.running_min (f : Minmax) (win : Duration) (now : Instant) (meas : Duration) :
    Minmax × Duration :=
  let samples := (f.samples ++ [(now, meas)]).filter fun s => decide (isub now s.1 ≤ win)
  (⟨samples⟩, (samples.map Prod.snd).foldl min meas)

/-- Rust `Direction` of the Copa velocity. -/
inductive Direction where
  | Up
  | Down
deriving DecidableEq, Repr

/-- Rust `UsedWindow`: sliding deque of send timestamps. -/
structure UsedWindow where
  packet_record : List Instant
deriving DecidableEq, Repr

/-- Rust `UsedWindow::on_data_send`: push `now`, evict entries older than
`now - win`, return the count (the just-pushed entry never satisfies the
eviction test for a non-negative window, so the `unwrap` cannot panic). -/
def UsedWindow.on_data_send (w : UsedWindow) (win : Duration) (now : Instant) :
    UsedWindow × ℕ :=
  let rec' := (w.packet_record ++ [now]).dropWhile fun t => decide (t < now - win)
  (⟨rec'⟩, rec'.length)

/-- Rust `Copa` congestion-controller state. -/
structure Copa where
  rtt_min_filter : Minmax
  rtt_standing_filter : Minmax
  delta_reciprocal : ℚ
  cwnd : ℚ
  cwnd_change : Instant
  v : ℚ
  direction : Direction
  direction_change : Instant
  cwnd_last_direction_change : ℚ
  slow_start : Bool
  cwnd_used : UsedWindow
deriving DecidableEq, Repr

/-- Rust `Copa::new`. -/
def Copa.new (now : Instant) : Copa where
  rtt_min_filter := Minmax.new
  rtt_standing_filter := Minmax.new
  delta_reciprocal := 2
  cwnd := 10
  cwnd_change := now
  v := 1
  direction := .Up
  direction_change := now
  cwnd_last_direction_change := 10
  slow_start := true
  cwnd_used := ⟨[]⟩

/-- Rust `Copa::on_data_send`: record the send, compare the recent rate
with the target rate, and return overspeed. -/
def Copa.on_data_send (c : Copa) (now : Instant) (client_rtt : Duration) : Copa × Bool :=
  let r := c.cwnd_used.on_data_send client_rtt now
  let m := c.rtt_min_filter.running_min MIN_RTT_WINDOW now client_rtt
  let c := { c with cwnd_used := r.1, rtt_min_filter := m.1 }
  (c, decide ((r.2 : ℚ) / client_rtt > c.cwnd / m.2))

/-- Rust `Copa::cwnd_update` (congestion avoidance):
increase by `v · (1/δ) · Δt / rtt` when `λ ≤ λt`, else decrease with the
same step, floored at 10. -/
def Copa.cwnd_update (c : Copa) (up : Bool) (now : Instant) (client_rtt : Duration) : Copa :=
  let t_delta := isub now c.cwnd_change
  let c := { c with cwnd_change := now }
  let cwnd_delta := c.v * c.delta_reciprocal * t_delta / client_rtt
  if up then { c with cwnd := c.cwnd + cwnd_delta }
  else { c with cwnd := max (c.cwnd - cwnd_delta) 10 }

/-- Rust `Copa::cwnd_update_slow_start`: multiply by
`1 + min(1, Δt/rtt)` when `λ ≤ λt`, else halve (no floor) and leave slow
start. -/
def Copa.cwnd_update_slow_start (c : Copa) (up : Bool) (now : Instant)
    (client_rtt : Duration) : Copa :=
  if up then
    let t_delta := isub now c.cwnd_change
    { c with cwnd := c.cwnd * (1 + min (t_delta / client_rtt) 1), cwnd_change := now }
  else { c with cwnd := c.cwnd / 2, slow_start := false }

/-- Rust `Copa::on_ack_send`: update the filters, the congestion window and
the velocity.  `none` models the `Duration` subtraction panic in
`dq = rtt_standing - rtt_min` when the standing minimum is below the
10-second minimum.  The branch test `λ ≤ λt` is `f64`: when `dq = 0`,
`λt = ∞` and the test holds for any `λ` (and `rtt_standing = 0` forces
`dq = 0`, so `λ` is finite in the other case); over `ℚ` this is the
explicit `dq = 0` disjunct. -/
def Copa.on_ack_send (c : Copa) (client_rtt : Duration) (now : Instant) : Option Copa :=
  let m := c.rtt_min_filter.running_min MIN_RTT_WINDOW now client_rtt
  let standing_window := max (client_rtt / 2) MIN_STANDING_WINDOW
  let s := c.rtt_standing_filter.running_min standing_window now client_rtt
  let c := { c with rtt_min_filter := m.1, rtt_standing_filter := s.1 }
  let rtt_min := m.2
  let rtt_standing := s.2
  if rtt_standing < rtt_min then none
  else
    let dq := rtt_standing - rtt_min
    let up : Bool := dq = 0 ∨ c.cwnd / rtt_standing ≤ c.delta_reciprocal / dq
    let c :=
      if c.slow_start then c.cwnd_update_slow_start up now client_rtt
      else c.cwnd_update up now client_rtt
    let delta_time := isub now c.direction_change
    if delta_time > client_rtt then
      let last_direction := c.direction
      let dir : Direction := if c.cwnd ≥ c.cwnd_last_direction_change then .Up else .Down
      let v' := if dir = last_direction then min (c.v * 2) V_MAX else 1
      some { c with
        direction := dir
        v := v'
        cwnd_last_direction_change := c.cwnd
        direction_change := now }
    else some c

/-- Rust `Copa::reset_rtt_filters`. -/
def Copa.reset_rtt_filters (c : Copa) : Copa :=
  { c with rtt_min_filter := Minmax.new, rtt_standing_filter := Minmax.new }

/-! ### Retransmission tasks (`retrans.rs`) -/

/-- An IPv4 socket address, opaque here (only identity matters). -/
abbrev SocketAddr : Type := ℕ

/-- Rust `retrans::Task`. -/
structure Task where
  src : SocketAddr
  dst : SocketAddr
  retrans_queue : List RawUdpPacket
deriving DecidableEq, Repr

/-- Rust `Task::from_queue`: drain `detected_loss` whenever it is
non-empty; emit a `Task` only when the direction gate is on and the
controller is not overspeed, otherwise discard the drained packets.
Returns the task (if any) together with the mutated queue. -/
def Task.from_queue (pkt_queue : PacketQueue) (src dst : SocketAddr)
    (direction_protect overspeed : Bool) : Option Task × PacketQueue :=
  if ¬ pkt_queue.have_retransmit then (none, pkt_queue)
  else
    let retrans_queue := pkt_queue.detected_loss
    let pkt_queue := { pkt_queue with detected_loss := [] }
    if ¬ direction_protect ∨ overspeed then (none, pkt_queue)
    else (some { src := src, dst := dst, retrans_queue := retrans_queue }, pkt_queue)

/-! ### Per-connection state (`conn.rs`) -/

/-- Constant `RTT_SMOOTHING_FACTOR` (1/8). -/
def RTT_SMOOTHING_FACTOR : ℚ := 1 / 8

/-- Constant `DELAY_kGranularity` (1 ms). -/
def DELAY_kGranularity : Duration := 1 / 1000

/-- Constant `DELAY_kTimeThreshold` (9/8 RTT). -/
def DELAY_kTimeThreshold : ℚ := 9 / 8

/-- Constant `DELAY_kPacketThreshold` (3 packets). -/
def DELAY_kPacketThreshold : ℕ := 3

/-- Rust `ConnState`. -/
inductive ConnState where
  | Initialed
  | Handshaked
deriving DecidableEq, Repr

/-- Rust `DominantDirection`. -/
inductive DominantDirection where
  | ToClient
  | ToServer
  | None
deriving DecidableEq, Repr

/-- Rust `DelayedACK`: an ACK held back for reordering. -/
structure DelayedACK where
  forward_ts : Instant
  payload : List ℕ
  e2e_rtt : Duration
deriving DecidableEq, Repr

/-- Rust `Conn`: per-connection state (the `pemi_io::Addr` double
representation collapses to `SocketAddr` here). -/
structure Conn where
  state : ConnState
  last_access : Instant
  begin_time : Instant
  client_addr : SocketAddr
  server_addr : SocketAddr
  client_rtt : Duration
  server_rtt : Duration
  to_server_queue : PacketQueue
  to_server_pkt_num : ℕ
  to_client_queue : PacketQueue
  min_pkt_size : ℕ
  dominant_direction : DominantDirection
  last_dominant_check : Instant
  server_bytes : ℕ
  client_bytes : ℕ
  cc : Copa
  overspeed : Bool
  overspeed_begin : Option Instant
  delayed_ack_queue : List DelayedACK
  last_rtt_calibration : Instant
deriving DecidableEq, Repr

/-- Rust `Conn::new` (for the first packet, `src` is the client and `dst`
the server; both `PacketQueue::new` calls take their `Instant::now()` as
`now`). -/
def Conn.new (now : Instant) (src dst : SocketAddr) : Conn where
  state := .Initialed
  last_access := now
  begin_time := now
  client_addr := src
  server_addr := dst
  client_rtt := 0
  server_rtt := 0
  to_server_queue := PacketQueue.new now
  to_server_pkt_num := 0
  to_client_queue := PacketQueue.new now
  min_pkt_size := 2 ^ 64 - 1
  dominant_direction := .None
  last_dominant_check := now
  server_bytes := 0
  client_bytes := 0
  cc := Copa.new now
  overspeed := false
  overspeed_begin := none
  delayed_ack_queue := []
  last_rtt_calibration := now

/-- Rust `Conn::is_handshaked`. -/
def Conn.is_handshaked (c : Conn) : Bool := c.state = ConnState.Handshaked

/-- Rust `Conn::need_reorder_ack`. -/
def Conn.need_reorder_ack (c : Conn) (src : SocketAddr) : Bool :=
  c.overspeed && (src = c.client_addr) && c.is_handshaked

/-- Rust `Conn::rtt_calibration` (`Instant::now()` is the explicit
`now_ts`).  When a new calibration sample arrives after at least one
end-to-end RTT and deviates from the smoothed client RTT by more than
`flowlet_timeout × flowlet_end_factor`, reset the to-client queue (drop
head flowlets that have a reply), reset Copa's RTT filters when the
deviation is upward, and adopt the calibration sample as `client_rtt`.
`none` models the panics inside `reset_due_to_rtt_deviation`. -/
def Conn.rtt_calibration (c : Conn) (now_ts : Instant)
    (calibration_rtt_sample : Duration) : Option Conn :=
  if isub now_ts c.last_rtt_calibration ≥ calibration_rtt_sample + c.server_rtt then
    let c := { c with last_rtt_calibration := now_ts }
    let rtt_error :=
      if calibration_rtt_sample ≥ c.client_rtt then calibration_rtt_sample - c.client_rtt
      else c.client_rtt - calibration_rtt_sample
    let allowable_error :=
      c.to_client_queue.flowlet_timeout calibration_rtt_sample * c.to_client_queue.flowlet_end_factor
    if rtt_error > allowable_error then
      match c.to_client_queue.reset_due_to_rtt_deviation with
      | none => none
      | some q' =>
        let c := { c with to_client_queue := q' }
        let c :=
          if c.client_rtt < calibration_rtt_sample then { c with cc := c.cc.reset_rtt_filters }
          else c
        some { c with client_rtt := calibration_rtt_sample }
    else some c
  else some c

/-- Rust `Conn::check_delayed_acks`: flush FIFO when not overspeed; when
overspeed with at least two queued ACKs and the packet-count or queued-age
threshold met (aggressive thresholds once overspeed has outlasted the
front's end-to-end RTT), send the tail ACK first and then the rest in FIFO
order.  Returns the connection and the sent payloads in send order; `none`
models the `overspeed_begin.unwrap()` panic. -/
def Conn.check_delayed_acks (c : Conn) (now : Instant) : Option (Conn × List (List ℕ)) :=
  if c.delayed_ack_queue.isEmpty then some (c, [])
  else if c.overspeed = false then
    some ({ c with delayed_ack_queue := [] }, c.delayed_ack_queue.map DelayedACK.payload)
  else if c.delayed_ack_queue.length < 2 then some (c, [])
  else
    match c.overspeed_begin with
    | none => none
    | some ob =>
      match c.delayed_ack_queue.head? with
      | none => some (c, [])
      | some front_ack =>
        let aggressive : Bool := isub now ob > front_ack.e2e_rtt
        let pkt_thresh := if aggressive then DELAY_kPacketThreshold * 2 else DELAY_kPacketThreshold
        let time_thresh :=
          if aggressive then 1 + (DELAY_kTimeThreshold - 1) * 2 else DELAY_kTimeThreshold
        if c.delayed_ack_queue.length > pkt_thresh
            ∨ isub now front_ack.forward_ts > max (front_ack.e2e_rtt * time_thresh) DELAY_kGranularity then
          match c.delayed_ack_queue.getLast? with
          | none => some (c, [])
          | some tail_ack =>
            some ({ c with delayed_ack_queue := [] },
              tail_ack.payload :: c.delayed_ack_queue.dropLast.map DelayedACK.payload)
        else some (c, [])

/-- Rust `Conn::add_delayed_ack`: enqueue the ACK with
`e2e_rtt = client_rtt + server_rtt`, then re-check the release condition. -/
def Conn.add_delayed_ack (c : Conn) (forward_ts : Instant) (payload : List ℕ) :
    Option (Conn × List (List ℕ)) :=
  let e2e_rtt := c.client_rtt + c.server_rtt
  let c := { c with
    delayed_ack_queue :=
      c.delayed_ack_queue ++ [(⟨forward_ts, payload, e2e_rtt⟩ : DelayedACK)] }
  c.check_delayed_acks forward_ts

/-- Rust `Conn::to_client_retrans_task`: retransmission toward the client,
gated on the dominant direction and on not being overspeed. -/
def Conn.to_client_retrans_task (c : Conn) : Option Task × Conn :=
  let r := Task.from_queue c.to_client_queue c.server_addr c.client_addr
    (c.dominant_direction = DominantDirection.ToClient) c.overspeed
  (r.1, { c with to_client_queue := r.2 })

/-! ### Concrete fixtures used by individual theorems -/

/-- A run of 49 Raw insertions (one second apart) followed by one Retrans
insertion (`payload = None`), starting from a fresh queue. -/
def measureRun : Option PacketQueue :=
  ((List.range 49).foldlM
    (fun q i => (PacketQueue.add q ((i : ℚ) + 1) (some []) 0 false).map fun r => r.1)
    (PacketQueue.new 0)).bind
    fun q => (q.add 50 none 0 false).map fun r => r.1

/-- A queue holding exactly 1000 pending packets. -/
def fullQueue : PacketQueue :=
  { PacketQueue.new 0 with
    packets := List.replicate 1000 (Packet.Retrans ⟨1, 0⟩)
    flowlets := [Flowlet.new 1 0] }

/-- A queue with a replied head flowlet (packet 1) and an unreplied second
flowlet (packet 2), used for the calibration-reset fixture. -/
def calibQueue : PacketQueue :=
  { PacketQueue.new 0 with
    flowlets :=
      [{ Flowlet.new 1 0 with reply_pkt_times := [1/10], reply_pkt_nums := [1] },
        Flowlet.new 2 (1/10)]
    packets := [Packet.Retrans ⟨1, 0⟩, Packet.Retrans ⟨2, 1/10⟩]
    flowlet_end_factor := 1/2 }

/-- A connection with a 50 ms smoothed client RTT whose to-client queue is
`calibQueue`, used for the calibration-reset fixture. -/
def calibConn : Conn :=
  { Conn.new 0 100 200 with
    client_rtt := 1/20
    to_client_queue := calibQueue }

/-- The packet queue left after `calibQueue.reset_due_to_rtt_deviation`. -/
def calibQueueAfter : PacketQueue :=
  { calibQueue with flowlets := [Flowlet.new 2 (1/10)], packets := [Packet.Retrans ⟨2, 1/10⟩] }

/-- A complete two-packet flowlet (packets 1 and 2) replied exactly, used
for the exactly-replied completion fixture. -/
def exactFl : Flowlet :=
  { Flowlet.new 1 0 with
    pkt_nums := [1, 2]
    reply_pkt_times := [1/2, 3/2]
    reply_pkt_nums := [1, 2]
    end_time := 1
    complete := true }

/-- A queue whose head flowlet is `exactFl`, used for the exactly-replied
completion fixture. -/
def exactQueue : PacketQueue :=
  { PacketQueue.new 0 with
    flowlets := [exactFl]
    packets := [Packet.Raw ⟨1, 0, [10]⟩, Packet.Raw ⟨2, 1, [11]⟩] }

/-- A connection that is overspeed with four delayed ACKs queued, used for
the release-order fixture. -/
def fourAckConn : Conn :=
  { Conn.new 0 100 200 with
    overspeed := true
    overspeed_begin := some 0
    delayed_ack_queue :=
      [⟨0, [1], 1⟩, ⟨1/100, [2], 1⟩, ⟨2/100, [3], 1⟩, ⟨3/100, [4], 1⟩] }

/-- A connection that is overspeed with a single delayed ACK whose queued
age is far beyond every time threshold. -/
def singleAckConn : Conn :=
  { Conn.new 0 100 200 with
    overspeed := true
    overspeed_begin := some 0
    delayed_ack_queue := [⟨0, [7], 1/100⟩] }

/-- A connection that is overspeed with two delayed ACKs queued, the front
one older than the time threshold, used as release-characterization
fixture. -/
def twoAckConn : Conn :=
  { Conn.new 0 100 200 with
    overspeed := true
    overspeed_begin := some 0
    delayed_ack_queue := [⟨0, [1], 1/100⟩, ⟨1/100, [2], 1/100⟩] }

/-- The release condition of spec §4.6 stated in the spec's own terms
(packet-count or queued-age trigger with the normal/aggressive threshold
switch), used to characterise `Conn.check_delayed_acks`. -/
def releaseTrigger (queue_len : ℕ) (front : DelayedACK) (now ob : Instant) : Prop :=
  let aggressive := isub now ob > front.e2e_rtt
  let pkt_thresh := if aggressive then DELAY_kPacketThreshold * 2 else DELAY_kPacketThreshold
  let time_thresh := if aggressive then 1 + (DELAY_kTimeThreshold - 1) * 2 else DELAY_kTimeThreshold
  queue_len > pkt_thresh ∨
    isub now front.forward_ts > max (front.e2e_rtt * time_thresh) DELAY_kGranularity

instance : Inhabited DelayedACK := ⟨⟨0, [], 0⟩⟩

instance (queue_len : ℕ) (front : DelayedACK) (now ob : Instant) :
    Decidable (releaseTrigger queue_len front now ob) := by
  unfold releaseTrigger
  infer_instance

/-- A fresh queue that has already processed 49 packets, none replied. -/
def q49 : PacketQueue := { PacketQueue.new 0 with processed := 49 }

/-- The queue produced by the 50th insertion into `q49` (a Retrans):
the measurement fires and sets the eliciting threshold to 2. -/
def q50 : PacketQueue :=
  { PacketQueue.new 0 with
    packets := [Packet.Retrans ⟨50, 1⟩]
    flowlets := [Flowlet.new 50 1]
    processed := 50
    eliciting_threshold := 2 }

/-- Reachability of a `Copa` state from `Copa.new` under an arbitrary
interleaving of `on_data_send` and (non-panicking) `on_ack_send` calls with
positive RTT samples. -/
inductive Copa.Reachable : Copa → Prop where
  | init (now : Instant) : Copa.Reachable (Copa.new now)
  | data (c : Copa) (now : Instant) (rtt : Duration) :
      Copa.Reachable c → Copa.Reachable (c.on_data_send now rtt).1
  | ack (c c' : Copa) (rtt : Duration) (now : Instant) :
      Copa.Reachable c → 0 < rtt → c.on_ack_send rtt now = some c' → Copa.Reachable c'

/-! ### Theorems for the specification claims -/

unseal Rat.add Rat.mul Rat.sub Rat.inv in
/-- C1: the DP matcher reproduces all four fixture mappings:
S=[0,50,100,150,200,250], R=[30,98,200,298,352], rtt=100 yields
[0,1,2,⊥,3,4]; S=[0,40,80,120,160,200,240], R=[18,121,205,330,400],
rtt=120 yields [0,1,2,⊥,⊥,3,4]; S=[0,10,20,30,40,50,60], R=[20,30,51,71],
rtt=20 yields [0,1,⊥,2,⊥,3,⊥]; S=[1,2,3,4], R=[2,4], rtt=0 yields
[⊥,0,⊥,1]. -/
theorem dp_fixture_cases :
    match_sent_reply_dp [0, 50, 100, 150, 200, 250] [30, 98, 200, 298, 352] 100
        = some [some 0, some 1, some 2, none, some 3, some 4] ∧
      match_sent_reply_dp [0, 40, 80, 120, 160, 200, 240] [18, 121, 205, 330, 400] 120
        = some [some 0, some 1, some 2, none, none, some 3, some 4] ∧
      match_sent_reply_dp [0, 10, 20, 30, 40, 50, 60] [20, 30, 51, 71] 20
        = some [some 0, some 1, none, some 2, none, some 3, none] ∧
      match_sent_reply_dp [1, 2, 3, 4] [2, 4] 0
        = some [none, some 0, none, some 1] := by
  refine ⟨by decide, by decide, by decide, by decide⟩

/-- C6: a retransmission `Task` toward the client is emitted precisely when
the to-client queue has detected losses, the dominant direction is
`ToClient`, and the controller is not overspeed; in particular with losses
and dominant `ToClient`, `overspeed = false` yields a task and
`overspeed = true` yields none. -/
theorem retrans_task_gate (c : Conn) :
    ((c.to_client_retrans_task).1).isSome = true ↔
      c.to_client_queue.detected_loss ≠ [] ∧
        c.dominant_direction = DominantDirection.ToClient ∧ c.overspeed = false := by
  unfold Conn.to_client_retrans_task Task.from_queue PacketQueue.have_retransmit
  rcases hdl : c.to_client_queue.detected_loss with _ | ⟨p, ps⟩ <;>
    rcases hdd : c.dominant_direction <;> rcases hos : c.overspeed <;>
      simp [hdl, hdd, hos]

/-- C10: every call to `Task::from_queue` leaves the queue's
`detected_loss` deque empty — also when it returns no task because the
direction gate is off or the controller is overspeed, in which case the
drained packets are discarded. -/
theorem from_queue_drains_detected_loss (q : PacketQueue) (src dst : SocketAddr)
    (direction_protect overspeed : Bool) :
    ((Task.from_queue q src dst direction_protect overspeed).2).detected_loss = [] := by
  unfold Task.from_queue PacketQueue.have_retransmit
  rcases hdl : q.detected_loss with _ | ⟨p, ps⟩ <;> rcases direction_protect <;>
    rcases overspeed <;> simp [hdl]

unseal Rat.add Rat.mul Rat.sub Rat.inv in
/-- C5 counterexample: with overspeed active and a single delayed ACK whose
queued age (1 s) exceeds `max(e2e_rtt × time_thresh, 1 ms)` under both
threshold regimes, `check_delayed_acks` releases nothing — the source
returns early whenever fewer than two ACKs are queued, so a non-empty
queue meeting the claimed release condition need not release. -/
theorem single_ack_no_release :
    singleAckConn.overspeed = true ∧
      singleAckConn.delayed_ack_queue ≠ [] ∧
      isub 1 ((singleAckConn.delayed_ack_queue.headD default).forward_ts) >
        max ((singleAckConn.delayed_ack_queue.headD default).e2e_rtt * DELAY_kTimeThreshold)
          DELAY_kGranularity ∧
      isub 1 ((singleAckConn.delayed_ack_queue.headD default).forward_ts) >
        max ((singleAckConn.delayed_ack_queue.headD default).e2e_rtt * (1 + (DELAY_kTimeThreshold - 1) * 2))
          DELAY_kGranularity ∧
      singleAckConn.check_delayed_acks 1 = some (singleAckConn, []) := by
  refine ⟨rfl, by decide, by decide, by decide, by decide⟩

unseal Rat.add Rat.mul Rat.sub Rat.inv in
/-- C7 counterexample: two `on_ack_send` calls from a fresh controller
(RTT sample 50 ms at t = 0, then 200 ms at t = 150 ms) drive Copa down the
slow-start exit branch, which halves `cwnd` without the floor: the window
ends at 5 < 10. -/
theorem copa_slow_start_exit_below_10 :
    ((((Copa.new 0).on_ack_send (1/20) 0).bind fun c =>
        c.on_ack_send (1/5) (3/20)).map Copa.cwnd) = some 5 ∧ ¬ (10 : ℚ) ≤ 5 := by
  refine ⟨by decide, by decide⟩

unseal Rat.add Rat.mul Rat.sub Rat.inv in
/-- C8 counterexample: after 49 Raw insertions and one Retrans insertion
(the 50th insertion overall, but only the 49th Raw one), the eliciting
threshold has been re-measured to 2 — the insertion counter counts every
insertion, not only Raw ones (under the claim the threshold would still be
the default 1). -/
theorem retrans_counted_toward_measurement :
    (measureRun.map fun q => q.eliciting_threshold) = some 2 ∧
      DEFAULT_ELICITING_THRESHOLD = 1 := by
  refine ⟨by decide, rfl⟩

set_option maxRecDepth 100000 in
unseal Rat.add Rat.mul Rat.sub Rat.inv in
/-- C9 counterexample: `add` on a queue already holding exactly 1000
pending packets succeeds — the source panics only when the count exceeds
1000, so holding 1000 packets at insertion time does not panic. -/
theorem add_at_1000_no_panic :
    fullQueue.packets.length = 1000 ∧ (fullQueue.add 1000 none 0 false).isSome = true := by
  refine ⟨by decide, by decide⟩

/-! ### Auxiliary projection lemmas -/

theorem record_packet_interval_packets (q : PacketQueue) (ts : Instant) :
    (q.record_packet_interval ts).packets = q.packets := rfl

theorem record_packet_interval_flowlets (q : PacketQueue) (ts : Instant) :
    (q.record_packet_interval ts).flowlets = q.flowlets := rfl

theorem record_packet_interval_processed (q : PacketQueue) (ts : Instant) :
    (q.record_packet_interval ts).processed = q.processed := rfl

theorem record_packet_interval_reply_nums (q : PacketQueue) (ts : Instant) :
    (q.record_packet_interval ts).reply_nums = q.reply_nums := rfl

theorem record_packet_interval_eliciting (q : PacketQueue) (ts : Instant) :
    (q.record_packet_interval ts).eliciting_threshold = q.eliciting_threshold := rfl

theorem measure_eliciting_packets (q : PacketQueue) :
    q.measure_eliciting_threshold.packets = q.packets := by
  unfold PacketQueue.measure_eliciting_threshold; split <;> rfl

theorem measure_eliciting_flowlets (q : PacketQueue) :
    q.measure_eliciting_threshold.flowlets = q.flowlets := by
  unfold PacketQueue.measure_eliciting_threshold; split <;> rfl

theorem measure_eliciting_value (q : PacketQueue) :
    q.measure_eliciting_threshold.eliciting_threshold =
      if q.reply_nums < 3 * q.processed / 5 then 2 else 1 := by
  unfold PacketQueue.measure_eliciting_threshold; split <;> simp_all

/-- C4: when the release trigger fires while overspeed is still active —
here through the packet-count threshold, four queued ACKs exceeding
`pkt_thresh = 3` in the normal regime — the tail entry of the delayed-ACK
queue is sent first and the remaining entries follow in FIFO order, so the
released order for four queued datagrams is [d4, d1, d2, d3]. -/
theorem delayed_ack_release_order (c : Conn) (now ob : Instant) (a1 a2 a3 a4 : DelayedACK)
    (hq : c.delayed_ack_queue = [a1, a2, a3, a4])
    (hos : c.overspeed = true)
    (hob : c.overspeed_begin = some ob)
    (hdur : isub now ob ≤ a1.e2e_rtt) :
    c.check_delayed_acks now =
      some ({ c with delayed_ack_queue := [] },
        [a4.payload, a1.payload, a2.payload, a3.payload]) := by
  unfold Conn.check_delayed_acks
  rw [hq, hos, hob]
  simp [not_lt.mpr hdur, DELAY_kPacketThreshold]

unseal Rat.add Rat.mul Rat.sub Rat.inv in
/-- C4 witness: a concrete overspeed connection with four queued ACKs
releases them as [d4, d1, d2, d3]. -/
theorem delayed_ack_release_order_witness :
    fourAckConn.check_delayed_acks (3/100) =
      some ({ fourAckConn with delayed_ack_queue := [] }, [[4], [1], [2], [3]]) :=
  delayed_ack_release_order fourAckConn (3/100) 0
    ⟨0, [1], 1⟩ ⟨1/100, [2], 1⟩ ⟨2/100, [3], 1⟩ ⟨3/100, [4], 1⟩
    rfl rfl rfl (by decide)

/-- C5 (amended): while overspeed is active and the delayed-ACK queue holds
at least two entries, `check_delayed_acks` releases the queued ACKs (tail
first, then FIFO) exactly when `queue_len > pkt_thresh` or the front
entry's queued age exceeds `max(e2e_rtt × time_thresh, 1 ms)`, with
`pkt_thresh = 3, time_thresh = 9/8` while the overspeed duration is at most
the front's end-to-end RTT and `pkt_thresh = 6, time_thresh = 5/4` once it
has lasted longer; otherwise no ACK is sent.  (With exactly one queued
entry the source returns without sending regardless of the condition.) -/
theorem delayed_ack_release_characterization (c : Conn) (now ob : Instant) (front : DelayedACK)
    (hos : c.overspeed = true)
    (hob : c.overspeed_begin = some ob)
    (hlen : 2 ≤ c.delayed_ack_queue.length)
    (hfront : c.delayed_ack_queue.head? = some front) :
    c.check_delayed_acks now =
      if releaseTrigger c.delayed_ack_queue.length front now ob then
        some ({ c with delayed_ack_queue := [] },
          (c.delayed_ack_queue.getLastD default).payload ::
            c.delayed_ack_queue.dropLast.map DelayedACK.payload)
      else some (c, []) := by
  have hne : c.delayed_ack_queue ≠ [] := by
    intro h
    rw [h] at hlen
    exact absurd hlen (by decide)
  obtain ⟨la, hla⟩ : ∃ la, c.delayed_ack_queue.getLast? = some la :=
    Option.isSome_iff_exists.mp (List.getLast?_isSome.mpr hne)
  have hlaD : c.delayed_ack_queue.getLastD default = la := by
    rw [List.getLastD_eq_getLast?, hla]; rfl
  unfold Conn.check_delayed_acks releaseTrigger
  rw [hos, hob, hfront, hla, hlaD]
  have hempty : c.delayed_ack_queue.isEmpty = false := by
    simpa [List.isEmpty_iff] using hne
  have hlt : ¬ c.delayed_ack_queue.length < 2 := not_lt.mpr hlen
  simp only [hempty, Bool.false_eq_true, if_false, hlt, if_neg]
  by_cases hagg : front.e2e_rtt < isub now ob
  · simp only [gt_iff_lt, hagg, if_true, ite_true, if_pos]
    split <;> simp_all
  · simp only [gt_iff_lt, hagg, if_false, ite_false, if_neg]
    split <;> simp_all

unseal Rat.add Rat.mul Rat.sub Rat.inv in
/-- C5 witness: a concrete overspeed connection with two queued ACKs, the
front one far older than the time threshold, releases [d2, d1]. -/
theorem delayed_ack_release_characterization_witness :
    twoAckConn.check_delayed_acks 1 =
      if releaseTrigger twoAckConn.delayed_ack_queue.length ⟨0, [1], 1/100⟩ 1 0 then
        some ({ twoAckConn with delayed_ack_queue := [] },
          (twoAckConn.delayed_ack_queue.getLastD default).payload ::
            twoAckConn.delayed_ack_queue.dropLast.map DelayedACK.payload)
      else some (twoAckConn, []) :=
  delayed_ack_release_characterization twoAckConn 1 0 ⟨0, [1], 1/100⟩ rfl rfl (by decide) rfl

/-- C8 (amended): the eliciting threshold is re-measured after every 50
insertions — Raw and Retrans alike, since `processed` counts both — and the
measurement sets it to 2 exactly when the reply count is below 0.6 times
the sent count (at a multiple of 50 sent packets, `⌊3·processed/5⌋` replies);
otherwise it is set to 1, and between measurement points it is unchanged. -/
theorem add_measurement (q : PacketQueue) (ts : Instant) (payload : Option (List ℕ))
    (rtt : Duration) (b : Bool) (r : PacketQueue × ℕ × Bool)
    (h : q.add ts payload rtt b = some r) :
    r.1.eliciting_threshold =
      if (q.processed + 1) % WHEN_MEASURE_ELICITING_THRESHOLD = 0 then
        if q.reply_nums < 3 * (q.processed + 1) / 5 then 2 else 1
      else q.eliciting_threshold := by
  unfold PacketQueue.add at h
  generalize hq1 : (if payload.isSome then q.record_packet_interval ts else q) = q1 at h
  have h1proc : q1.processed = q.processed := by rw [← hq1]; split <;> rfl
  have h1rep : q1.reply_nums = q.reply_nums := by rw [← hq1]; split <;> rfl
  have h1el : q1.eliciting_threshold = q.eliciting_threshold := by rw [← hq1]; split <;> rfl
  dsimp only at h
  rw [h1proc] at h
  generalize hq2 : (if (q.processed + 1) % WHEN_MEASURE_ELICITING_THRESHOLD = 0 then
      PacketQueue.measure_eliciting_threshold { q1 with processed := q.processed + 1 }
    else { q1 with processed := q.processed + 1 }) = q2 at h
  have h2el : q2.eliciting_threshold =
      if (q.processed + 1) % WHEN_MEASURE_ELICITING_THRESHOLD = 0 then
        if q.reply_nums < 3 * (q.processed + 1) / 5 then 2 else 1
      else q.eliciting_threshold := by
    rw [← hq2]
    by_cases hmm : (q.processed + 1) % WHEN_MEASURE_ELICITING_THRESHOLD = 0
    · rw [if_pos hmm, if_pos hmm, measure_eliciting_value]
      dsimp only
      rw [h1rep]
    · rw [if_neg hmm, if_neg hmm]
      dsimp only
      exact h1el
  split at h
  · exact absurd h (by simp)
  · generalize hstep : (match q2.newest_ts with
      | none => some ({ q2 with flowlets := q2.flowlets ++ [Flowlet.new q2.processed ts] }, true)
      | some newest_time =>
        if isub ts newest_time ≤ q2.flowlet_timeout rtt then
          match q2.flowlets.getLast? with
          | none => none
          | some fl =>
            some ({ q2 with flowlets := q2.flowlets.dropLast ++ [fl.add q2.processed ts] }, false)
        else some ({ q2 with flowlets := q2.flowlets ++ [Flowlet.new q2.processed ts] }, true)) = step at h
    have hstepel : ∀ q3 f, step = some (q3, f) → q3.eliciting_threshold = q2.eliciting_threshold := by
      intro q3 f hs
      rw [hs] at hstep
      rcases hq3 : q2.newest_ts with _ | t <;> rw [hq3] at hstep <;> dsimp only at hstep
      · have h4 := congrArg (fun p => (Prod.fst p).eliciting_threshold) (Option.some.inj hstep)
        dsimp at h4
        exact h4.symm
      · split at hstep
        · rcases hfl : q2.flowlets.getLast? with _ | fl <;> rw [hfl] at hstep <;>
            dsimp only at hstep
          · exact absurd hstep (by simp)
          · have h4 := congrArg (fun p => (Prod.fst p).eliciting_threshold) (Option.some.inj hstep)
            dsimp at h4
            exact h4.symm
        · have h4 := congrArg (fun p => (Prod.fst p).eliciting_threshold) (Option.some.inj hstep)
          dsimp at h4
          exact h4.symm
    rcases step with _ | ⟨q3, f⟩
    · exact absurd h (by simp)
    · dsimp only at h
      obtain rfl := Option.some.inj h
      dsimp only
      rw [hstepel q3 f rfl, h2el]

unseal Rat.add Rat.mul Rat.sub Rat.inv in
/-- C8 witness: the 50th insertion into a queue with 49 processed packets
and no recorded replies (a Retrans insertion) re-measures the threshold,
setting it to 2. -/
theorem add_measurement_witness :
    q50.eliciting_threshold =
      if (q49.processed + 1) % WHEN_MEASURE_ELICITING_THRESHOLD = 0 then
        if q49.reply_nums < 3 * (q49.processed + 1) / 5 then 2 else 1
      else q49.eliciting_threshold :=
  add_measurement q49 1 none 0 false (q50, 50, true) (by decide)

/-- Lemma: `newest_ts` reads the last packet's timestamp. -/
theorem newest_ts_eq (q : PacketQueue) :
    q.newest_ts = q.packets.getLast?.map Packet.timestamp := rfl

/-- C9 (amended): `PacketQueue::add` panics exactly when the queue holds
strictly more than 1000 pending packets at the time of the insertion; with
at most 1000 pending packets (and packets only present when a flowlet is)
it succeeds and grows the pending count by one, so the count never exceeds
1001. -/
theorem add_panic_characterization (q : PacketQueue) (ts : Instant) (payload : Option (List ℕ))
    (rtt : Duration) (b : Bool)
    (hwf : q.packets = [] ∨ q.flowlets ≠ []) :
    (1000 < q.packets.length → q.add ts payload rtt b = none) ∧
      (q.packets.length ≤ 1000 →
        ∃ r, q.add ts payload rtt b = some r ∧
          r.1.packets.length = q.packets.length + 1) := by
  unfold PacketQueue.add
  generalize hq1 : (if payload.isSome then q.record_packet_interval ts else q) = q1
  have h1p : q1.packets = q.packets := by rw [← hq1]; split <;> rfl
  have h1f : q1.flowlets = q.flowlets := by rw [← hq1]; split <;> rfl
  have h1proc : q1.processed = q.processed := by rw [← hq1]; split <;> rfl
  dsimp only
  rw [h1proc]
  generalize hq2 : (if (q.processed + 1) % WHEN_MEASURE_ELICITING_THRESHOLD = 0 then
      PacketQueue.measure_eliciting_threshold { q1 with processed := q.processed + 1 }
    else { q1 with processed := q.processed + 1 }) = q2
  have h2p : q2.packets = q.packets := by
    rw [← hq2]; split
    · rw [measure_eliciting_packets]; dsimp only; exact h1p
    · dsimp only; exact h1p
  have h2f : q2.flowlets = q.flowlets := by
    rw [← hq2]; split
    · rw [measure_eliciting_flowlets]; dsimp only; exact h1f
    · dsimp only; exact h1f
  rw [newest_ts_eq, h2p, h2f]
  constructor
  · intro hlen
    rw [if_pos hlen]
  · intro hlen
    rw [if_neg (not_lt.mpr hlen)]
    rcases hl : q.packets.getLast? with _ | p
    · dsimp only [Option.map]
      exact ⟨_, rfl, by simp⟩
    · dsimp only [Option.map]
      by_cases hgap : isub ts p.timestamp ≤ q2.flowlet_timeout rtt
    <;> [rw [if_pos hgap]; rw [if_neg hgap]]
      · have hne : q.packets ≠ [] := by
          intro hnil
          rw [hnil] at hl
          exact absurd hl (by simp)
        obtain ⟨fl, hfl⟩ : ∃ fl, q.flowlets.getLast? = some fl :=
          Option.isSome_iff_exists.mp (List.getLast?_isSome.mpr (hwf.resolve_left hne))
        rw [hfl]
        exact ⟨_, rfl, by simp⟩
      · exact ⟨_, rfl, by simp⟩

/-- C9 witness: on the 1000-packet queue the panic branch is not taken and
the insertion succeeds, raising the pending count to 1001. -/
theorem add_panic_characterization_witness :
    (1000 < fullQueue.packets.length → fullQueue.add 1000 none 0 false = none) ∧
      (fullQueue.packets.length ≤ 1000 →
        ∃ r, fullQueue.add 1000 none 0 false = some r ∧
          r.1.packets.length = fullQueue.packets.length + 1) :=
  add_panic_characterization fullQueue 1000 none 0 false (Or.inr (by decide))

/-- Lemma: a successful `popPkts` pops exactly the flowlet's packet count. -/
theorem popPkts_drop (nums : List ℕ) : ∀ (ps ps' : List Packet),
    popPkts nums ps = some ps' → ps' = ps.drop nums.length := by
  induction nums with
  | nil =>
    intro ps ps' h
    simp only [popPkts] at h
    obtain rfl := Option.some.inj h
    simp
  | cons n nums ih =>
    intro ps ps' h
    cases ps with
    | nil => simp [popPkts] at h
    | cons p ps0 =>
      simp only [popPkts] at h
      split at h
      · simpa [List.length_cons] using ih ps0 ps' h
      · exact absurd h (by simp)

/-- Lemma: a successful `resetLoop` drops exactly the head flowlets that
have a reply, together with their packets, and nothing else. -/
theorem resetLoop_spec (fls : List Flowlet) : ∀ (ps : List Packet) (r : List Flowlet × List Packet),
    resetLoop fls ps = some r →
    r.1 = fls.dropWhile (fun fl => !fl.reply_pkt_times.isEmpty) ∧
      r.2 = ps.drop (((fls.takeWhile fun fl => !fl.reply_pkt_times.isEmpty).map
        fun fl => fl.pkt_nums.length).sum) := by
  induction fls with
  | nil =>
    intro ps r h
    simp only [resetLoop] at h
    obtain rfl := (Option.some.inj h)
    simp
  | cons fl fls ih =>
    intro ps r h
    simp only [resetLoop] at h
    by_cases hrep : fl.reply_pkt_times = []
    · rw [if_pos hrep] at h
      obtain rfl := (Option.some.inj h)
      have hb : (!fl.reply_pkt_times.isEmpty) = false := by simp [hrep]
      simp [List.dropWhile_cons, List.takeWhile_cons, hb]
    · rw [if_neg hrep] at h
      rcases hpop : popPkts fl.pkt_nums ps with _ | ps1 <;> rw [hpop] at h
      · exact absurd h (by simp)
      · obtain ⟨h1, h2⟩ := ih ps1 r h
        have hb : (!fl.reply_pkt_times.isEmpty) = true := by simp [hrep]
        refine ⟨by rw [h1]; simp [List.dropWhile_cons, hb], ?_⟩
        rw [h2, popPkts_drop _ _ _ hpop, List.drop_drop]
        simp only [List.takeWhile_cons, hb, if_true, List.map_cons, List.sum_cons]

/-- C3: when a calibration sample arrives after at least one end-to-end RTT
and exceeds the smoothed client RTT by more than
`flowlet_timeout × flowlet_end_factor`, `rtt_calibration` resets the
to-client queue — dropping every head flowlet that has at least one reply
(their packets leave the packet deque, with `detected_loss` untouched) and
keeping the flowlets that have none — resets Copa's min-RTT filters
(the deviation is upward: `client_rtt < sample`), and adopts the sample as
the new smoothed `client_rtt`. -/
theorem rtt_calibration_large_deviation (c : Conn) (now_ts : Instant)
    (sample : Duration) (q' : PacketQueue)
    (hgate : sample + c.server_rtt ≤ isub now_ts c.last_rtt_calibration)
    (hallow : 0 ≤ c.to_client_queue.flowlet_timeout sample * c.to_client_queue.flowlet_end_factor)
    (hdev : c.client_rtt
        + c.to_client_queue.flowlet_timeout sample * c.to_client_queue.flowlet_end_factor < sample)
    (hreset : c.to_client_queue.reset_due_to_rtt_deviation = some q') :
    c.rtt_calibration now_ts sample =
        some { c with
          last_rtt_calibration := now_ts
          to_client_queue := q'
          cc := c.cc.reset_rtt_filters
          client_rtt := sample } ∧
      q'.flowlets = c.to_client_queue.flowlets.dropWhile (fun fl => !fl.reply_pkt_times.isEmpty) ∧
      q'.detected_loss = c.to_client_queue.detected_loss ∧
      q'.packets = c.to_client_queue.packets.drop
        (((c.to_client_queue.flowlets.takeWhile fun fl => !fl.reply_pkt_times.isEmpty).map
          fun fl => fl.pkt_nums.length).sum) := by
  have hlt : c.client_rtt < sample := lt_of_le_of_lt (le_add_of_nonneg_right hallow) hdev
  have herr : c.to_client_queue.flowlet_timeout sample * c.to_client_queue.flowlet_end_factor
      < sample - c.client_rtt := lt_sub_iff_add_lt'.mpr hdev
  constructor
  · unfold Conn.rtt_calibration
    rw [if_pos hgate]
    dsimp only
    rw [if_pos (le_of_lt hlt), if_pos herr, hreset]
    dsimp only
    rw [if_pos hlt]
  · unfold PacketQueue.reset_due_to_rtt_deviation at hreset
    obtain ⟨r, hr, hq'⟩ := Option.map_eq_some'.mp hreset
    obtain ⟨h1, h2⟩ := resetLoop_spec _ _ _ hr
    refine ⟨?_, ?_, ?_⟩ <;> rw [← hq']
    · exact h1
    · exact h2

unseal Rat.add Rat.mul Rat.sub Rat.inv in
/-- C3 witness: client_rtt = 50 ms, calibration sample = 500 ms,
flowlet_end_factor = 0.5 — the large-deviation branch fires, the replied
head flowlet is dropped (the unreplied one kept, `detected_loss`
untouched), Copa's filters are reset, and client_rtt becomes 500 ms. -/
theorem rtt_calibration_large_deviation_witness :
    calibConn.rtt_calibration 1 (1/2) =
        some { calibConn with
          last_rtt_calibration := 1
          to_client_queue := calibQueueAfter
          cc := calibConn.cc.reset_rtt_filters
          client_rtt := 1/2 } ∧
      calibQueueAfter.flowlets =
        calibConn.to_client_queue.flowlets.dropWhile (fun fl => !fl.reply_pkt_times.isEmpty) ∧
      calibQueueAfter.detected_loss = calibConn.to_client_queue.detected_loss ∧
      calibQueueAfter.packets = calibConn.to_client_queue.packets.drop
        (((calibConn.to_client_queue.flowlets.takeWhile fun fl => !fl.reply_pkt_times.isEmpty).map
          fun fl => fl.pkt_nums.length).sum) :=
  rtt_calibration_large_deviation calibConn 1 (1/2) calibQueueAfter
    (by decide) (by decide) (by decide) (by decide)

/-- Lemma: the congestion-avoidance update keeps `delta_reciprocal` and `v`
and `slow_start`, and keeps the window at least 5 (decreases are floored at
10, increases add a non-negative step). -/
theorem cwnd_update_inv (c : Copa) (up : Bool) (now : Instant) (rtt : Duration)
    (hrtt : 0 < rtt) (hd : c.delta_reciprocal = 2) (hv : 1 ≤ c.v) (hc : 5 ≤ c.cwnd) :
    (c.cwnd_update up now rtt).delta_reciprocal = 2 ∧
      (c.cwnd_update up now rtt).v = c.v ∧
      (c.cwnd_update up now rtt).slow_start = c.slow_start ∧
      5 ≤ (c.cwnd_update up now rtt).cwnd := by
  have hdelta : 0 ≤ c.v * c.delta_reciprocal * isub now c.cwnd_change / rtt := by
    apply div_nonneg _ (le_of_lt hrtt)
    exact mul_nonneg (mul_nonneg (le_trans zero_le_one hv) (by rw [hd]; norm_num))
      (le_max_right _ _)
  unfold Copa.cwnd_update
  cases up
  · simp only [Bool.false_eq_true, if_false, ite_false]
    refine ⟨hd, by first | rfl | trivial, by first | rfl | trivial, ?_⟩
    have h5 : (5 : ℚ) ≤ 10 := by norm_num
    exact le_trans h5 (le_max_right _ _)
  · simp only [if_true, ite_true]
    refine ⟨hd, by first | rfl | trivial, by first | rfl | trivial, ?_⟩
    dsimp only
    linarith

/-- Lemma: the slow-start update keeps `delta_reciprocal` and `v`; while it
stays in slow start the window only grows (factor at least 1), and the
exit halves a window that was at least 10, so at least 5 remains. -/
theorem cwnd_update_slow_start_inv (c : Copa) (up : Bool) (now : Instant) (rtt : Duration)
    (hrtt : 0 < rtt) (hd : c.delta_reciprocal = 2) (h10 : 10 ≤ c.cwnd) :
    (c.cwnd_update_slow_start up now rtt).delta_reciprocal = 2 ∧
      (c.cwnd_update_slow_start up now rtt).v = c.v ∧
      ((c.cwnd_update_slow_start up now rtt).slow_start = true →
        10 ≤ (c.cwnd_update_slow_start up now rtt).cwnd) ∧
      5 ≤ (c.cwnd_update_slow_start up now rtt).cwnd := by
  unfold Copa.cwnd_update_slow_start
  cases up
  · simp only [Bool.false_eq_true, if_false, ite_false]
    refine ⟨hd, by first | rfl | trivial, ?_, ?_⟩ <;> dsimp only
    · intro hfalse
      cases hfalse
    · linarith
  · have hfac : 1 ≤ 1 + min (isub now c.cwnd_change / rtt) 1 := by
      have h0 : 0 ≤ min (isub now c.cwnd_change / rtt) 1 :=
        le_min (div_nonneg (le_max_right _ _) (le_of_lt hrtt)) zero_le_one
      linarith
    have hgrow : c.cwnd ≤ c.cwnd * (1 + min (isub now c.cwnd_change / rtt) 1) :=
      le_mul_of_one_le_right (by linarith) hfac
    simp only [if_true, ite_true]
    refine ⟨hd, by first | rfl | trivial, ?_, ?_⟩ <;> dsimp only
    · intro _
      linarith
    · linarith

/-- Lemma: a non-panicking `on_ack_send` step preserves the Copa invariant:
`delta_reciprocal = 2`, `v ≥ 1`, window at least 10 during slow start, and
window at least 5 always. -/
theorem on_ack_send_inv (c c' : Copa) (rtt : Duration) (now : Instant)
    (hrtt : 0 < rtt) (h : c.on_ack_send rtt now = some c')
    (ihd : c.delta_reciprocal = 2) (ihv : 1 ≤ c.v)
    (ihss : c.slow_start = true → 10 ≤ c.cwnd) (ihc : 5 ≤ c.cwnd) :
    c'.delta_reciprocal = 2 ∧ 1 ≤ c'.v ∧ (c'.slow_start = true → 10 ≤ c'.cwnd) ∧ 5 ≤ c'.cwnd := by
  unfold Copa.on_ack_send at h
  lift_lets at h
  extract_lets m standing_window s c1 rtt_min rtt_standing at h
  extract_lets dq up c2 delta_time last_direction dir v' at h
  have hd1 : c1.delta_reciprocal = 2 := ihd
  have hv1 : 1 ≤ c1.v := ihv
  have hss1 : c1.slow_start = true → 10 ≤ c1.cwnd := ihss
  have hc1 : 5 ≤ c1.cwnd := ihc
  have hc2eq : c2 = if c1.slow_start = true then c1.cwnd_update_slow_start up now rtt
      else c1.cwnd_update up now rtt := rfl
  have hc2 : c2.delta_reciprocal = 2 ∧ c2.v = c1.v ∧
      (c2.slow_start = true → 10 ≤ c2.cwnd) ∧ 5 ≤ c2.cwnd := by
    by_cases hssb : c1.slow_start = true
    · rw [if_pos hssb] at hc2eq
      obtain ⟨e1, e2, e3, e4⟩ :=
        cwnd_update_slow_start_inv c1 up now rtt hrtt hd1 (hss1 hssb)
      rw [← hc2eq] at e1 e2 e3 e4
      exact ⟨e1, e2, e3, e4⟩
    · rw [if_neg hssb] at hc2eq
      have hssb2 : c1.slow_start = false := by simpa using hssb
      obtain ⟨e1, e2, e3, e4⟩ := cwnd_update_inv c1 up now rtt hrtt hd1 hv1 hc1
      rw [← hc2eq] at e1 e2 e3 e4
      exact ⟨e1, e2, by
        intro hs
        rw [e3, hssb2] at hs
        exact absurd hs (by simp), e4⟩
  obtain ⟨k1, k2, k3, k4⟩ := hc2
  have hv2 : 1 ≤ c2.v := by rw [k2]; exact hv1
  split at h
  · exact absurd h (by simp)
  · split at h
    · obtain rfl := Option.some.inj h
      have hv'eq : v' = if dir = last_direction then min (c2.v * 2) V_MAX else 1 := rfl
      refine ⟨k1, ?_, k3, k4⟩
      show 1 ≤ v'
      rw [hv'eq]
      split
      · exact le_min (by linarith) (by norm_num [V_MAX])
      · exact le_refl 1
    · obtain rfl := Option.some.inj h
      exact ⟨k1, hv2, k3, k4⟩

/-- Lemma: every reachable Copa state satisfies the invariant. -/
theorem copa_inv (c : Copa) (h : Copa.Reachable c) :
    c.delta_reciprocal = 2 ∧ 1 ≤ c.v ∧ (c.slow_start = true → 10 ≤ c.cwnd) ∧ 5 ≤ c.cwnd := by
  induction h with
  | init now => exact ⟨rfl, le_refl 1, fun _ => le_refl 10, by norm_num [Copa.new]⟩
  | data c now rtt hc ih => exact ih
  | ack c c' rtt now hc hrtt hstep ih =>
    exact on_ack_send_inv c c' rtt now hrtt hstep ih.1 ih.2.1 ih.2.2.1 ih.2.2.2

/-- C7 (amended): Copa's window starts at 10; congestion-avoidance
decreases are floored at 10, but the slow-start exit halves the window
without a floor, so under any interleaving of `on_data_send` and
`on_ack_send` calls (with positive RTT samples) the window stays at least
10 while in slow start and at least 5 — not 10 — thereafter. -/
theorem copa_cwnd_lower_bound (c : Copa) (h : Copa.Reachable c) :
    5 ≤ c.cwnd ∧ (c.slow_start = true → 10 ≤ c.cwnd) :=
  ⟨(copa_inv c h).2.2.2, (copa_inv c h).2.2.1⟩

/-- C7 witness: the freshly created controller satisfies the bound. -/
theorem copa_cwnd_lower_bound_witness :
    5 ≤ (Copa.new 0).cwnd ∧ ((Copa.new 0).slow_start = true → 10 ≤ (Copa.new 0).cwnd) :=
  copa_cwnd_lower_bound (Copa.new 0) (Copa.Reachable.init 0)

/-- Lemma: `mapM` over `Option` succeeds pointwise. -/
theorem mapM_eq_some_map {α β : Type} (f : α → Option β) (g : α → β) :
    ∀ (l : List α), (∀ a ∈ l, f a = some (g a)) → l.mapM f = some (l.map g) := by
  intro l
  induction l with
  | nil => intro _; rfl
  | cons a l ih =>
    intro hall
    rw [List.map_cons, List.mapM_cons, hall a (List.mem_cons_self a l),
      ih (fun b hb => hall b (List.mem_cons_of_mem a hb))]
    rfl

/-- Lemma: on a queue whose packet numbers are consecutive from `base`,
`get_packet (base + i)` returns the i-th packet. -/
theorem get_packet_consec (q : PacketQueue) (base i : ℕ) (hi : i < q.packets.length)
    (hcons : ∀ j, j < q.packets.length → (q.packets.getD j default).number = base + j) :
    q.get_packet (base + i) = some (q.packets.getD i default) := by
  unfold PacketQueue.get_packet
  rcases hps : q.packets with _ | ⟨p0, ps⟩
  · rw [hps] at hi
    exact absurd hi (by simp)
  · rw [hps] at hi hcons
    have hlast : (p0 :: ps).getLast? = some ((p0 :: ps).getLast (by simp)) :=
      List.getLast?_eq_getLast _ (by simp)
    rw [List.head?_cons, hlast]
    have hp0 : p0.number = base := by
      have h0 := hcons 0 (by simp)
      simpa using h0
    have hlastnum : ((p0 :: ps).getLast (by simp)).number = base + ps.length := by
      have hln : ps.length < (p0 :: ps).length := by simp
      have := hcons ps.length hln
      rw [List.getLast_eq_getElem]
      rw [List.getD_eq_getElem (p0 :: ps) default hln] at this
      simpa using this
    have hnotlt : ¬ (base + i < p0.number ∨ ((p0 :: ps).getLast (by simp)).number < base + i) := by
      rw [hp0, hlastnum]
      push_neg
      constructor
      · omega
      · have : i < (p0 :: ps).length := hi
        simp at this
        omega
    dsimp only
    rw [if_neg hnotlt, hp0, Nat.add_sub_cancel_left]
    rw [List.getElem?_eq_getElem hi, List.getD_eq_getElem (p0 :: ps) default hi]

/-- Lemma: with an empty loss set and matching packet numbers, the removal
loop pops exactly the flowlet's packets and touches `detected_loss` not at
all. -/
theorem removeLoop_no_loss :
    ∀ (nums : List ℕ) (ps : List Packet) (dl : List RawUdpPacket),
      nums = (ps.take nums.length).map Packet.number →
      removeLoop [] nums ps dl = some (ps.drop nums.length, dl) := by
  intro nums
  induction nums with
  | nil => intro ps dl _; rfl
  | cons n nums ih =>
    intro ps dl h
    cases ps with
    | nil => exact absurd h (by simp)
    | cons p ps0 =>
      rw [List.length_cons, List.take_succ_cons, List.map_cons] at h
      obtain ⟨h1, h2⟩ := List.cons.inj h
      unfold removeLoop
      rw [if_pos h1.symm]
      have : (n ∈ ([] : List ℕ)) = False := by simp
      simp only [this, if_false, ite_false, List.not_mem_nil]
      rw [ih ps0 dl h2]
      rfl

/-- C2: completing a flowlet that is exactly replied — one recorded reply
per sent packet — loses nothing (`detected_loss` is unchanged in the
resulting queue) and yields one RTT sample per packet, the i-th being the
i-th reply time minus the i-th packet's timestamp.  The hypotheses are the
queue's structural invariants: the head flowlet's packet numbers are the
numbers of the first packets of the deque, and the deque numbers are
consecutive from `base`. -/
theorem complete_one_flowlet_exact (q : PacketQueue) (fl : Flowlet) (rest : List Flowlet)
    (rtt : Duration) (base : ℕ)
    (hfl : q.flowlets = fl :: rest)
    (hc : fl.complete = true)
    (hexact : fl.reply_pkt_times.length = fl.pkt_nums.length)
    (halign : fl.pkt_nums = (q.packets.take fl.pkt_nums.length).map Packet.number)
    (hcons : ∀ j, j < q.packets.length → (q.packets.getD j default).number = base + j) :
    q.complete_one_flowlet rtt =
      some ((List.range fl.pkt_nums.length).map fun i =>
          isub (fl.reply_pkt_times.getD i 0) ((q.packets.getD i default).timestamp),
        { q with flowlets := rest, packets := q.packets.drop fl.pkt_nums.length }) := by
  have hlen : fl.pkt_nums.length ≤ q.packets.length := by
    have hl := congrArg List.length halign
    simp only [List.length_map, List.length_take] at hl
    omega
  have hnum : ∀ i, i < fl.pkt_nums.length → fl.pkt_nums.getD i 0 = base + i := by
    intro i hi
    have hi2 : i < q.packets.length := lt_of_lt_of_le hi hlen
    have hi3 : i < ((q.packets.take fl.pkt_nums.length).map Packet.number).length := by
      simp only [List.length_map, List.length_take]
      omega
    rw [halign, List.getD_eq_getElem _ _ hi3, List.getElem_map, List.getElem_take]
    rw [← List.getD_eq_getElem q.packets default hi2]
    exact hcons i hi2
  have hsamples : exactSamples q fl =
      some ((List.range fl.pkt_nums.length).map fun i =>
        isub (fl.reply_pkt_times.getD i 0) ((q.packets.getD i default).timestamp)) := by
    apply mapM_eq_some_map
    intro i hi
    have hi' : i < fl.pkt_nums.length := List.mem_range.mp hi
    rw [hnum i hi', get_packet_consec q base i (lt_of_lt_of_le hi' hlen) hcons]
    rfl
  have hremove : q.remove_a_complete_flowlet [] =
      some { q with flowlets := rest, packets := q.packets.drop fl.pkt_nums.length } := by
    unfold PacketQueue.remove_a_complete_flowlet
    rw [hfl]
    dsimp only
    rw [if_pos hc, removeLoop_no_loss fl.pkt_nums q.packets q.detected_loss halign]
    rfl
  unfold PacketQueue.complete_one_flowlet
  rw [hfl]
  dsimp only
  have hc' : (¬ fl.complete = true) = False := by simp [hc]
  have hno : (fl.pkt_nums.length < fl.reply_pkt_times.length) = False := by
    simp [hexact]
  have hex : fl.exactly_replyed = true := by
    simp [Flowlet.exactly_replyed, hexact]
  simp only [hc', if_false, ite_false, hno, hex, if_true, ite_true]
  rw [hsamples, hremove]
  rfl

unseal Rat.add Rat.mul Rat.sub Rat.inv in
/-- C2 witness: completing the exactly-replied two-packet flowlet yields
two RTT samples — reply time minus send timestamp — and leaves
`detected_loss` untouched. -/
theorem complete_one_flowlet_exact_witness :
    exactQueue.complete_one_flowlet 0 =
      some ((List.range exactFl.pkt_nums.length).map fun i =>
          isub (exactFl.reply_pkt_times.getD i 0) ((exactQueue.packets.getD i default).timestamp),
        { exactQueue with
          flowlets := []
          packets := exactQueue.packets.drop exactFl.pkt_nums.length }) :=
  complete_one_flowlet_exact exactQueue exactFl [] 0 1 rfl rfl (by decide) (by decide) (by decide)

end Pemi
